import Mathlib

/-!
Verification of the warpdf PDF digital-signature engine
(`extractSignatures` / `validateSignature` / `validatePdfSignatures` /
`countSignatures`) and of the certificate relay worker
(`isValidCertificateUrl` / request handler).

Modelling conventions:
* Document bytes and all JavaScript strings that originate from the
  document are `List Nat` (one latin1 code unit per byte, exactly the
  `TextDecoder('latin1')` view the source scans).
* JavaScript `Date` values are `Int` epoch milliseconds; `new Date(0)`
  is `0`.
* The node-forge library is external to the repository; its DER/PKCS#7
  parser and its `Certificate.isIssuer` method are oracle parameters
  (`p7parse`, `isIssuerF`) returning `Except JsErr _`, where a thrown
  JavaScript value is `some message` for an `Error` and `none` for a
  non-`Error` throw.  `decodeURIComponent(escape(s))` is modelled
  concretely by strict UTF-8 decoding (`utf8Decode`), which is its
  observable behaviour on a latin1 string; `new URL` is an oracle
  parameter producing the parsed `protocol` and `hostname`.
* The regular expressions of the source are deterministic (every
  adjacent pair of character classes is disjoint), so they are embedded
  as straight-line maximal-munch matchers; `String.match` (leftmost
  match) is `findFirstMap`, and the global `exec` loop advances to the
  end of each match exactly as `lastIndex` does.
-/

set_option maxRecDepth 4000

/-- Character codes of a Lean string literal, used to write concrete
document bytes and JavaScript strings. -/
def strBytes (s : String) : List Nat := s.toList.map Char.toNat

/-- JS `\d` on latin1 text. -/
def isDigitB (c : Nat) : Bool := decide (48 ≤ c ∧ c ≤ 57)

/-- JS `\s` restricted to latin1: tab, lf, vt, ff, cr, space, nbsp. -/
def isSpaceB (c : Nat) : Bool :=
  decide (c = 9 ∨ c = 10 ∨ c = 11 ∨ c = 12 ∨ c = 13 ∨ c = 32 ∨ c = 160)

/-- JS `[0-9A-Fa-f]`. -/
def isHexB (c : Nat) : Bool :=
  isDigitB c || decide (65 ≤ c ∧ c ≤ 70) || decide (97 ≤ c ∧ c ≤ 102)

/-- JS `\w` (word character, used by the `\b` boundary after `/Sig`). -/
def isWordB (c : Nat) : Bool :=
  isDigitB c || decide (65 ≤ c ∧ c ≤ 90) || decide (97 ≤ c ∧ c ≤ 122) || decide (c = 95)

/-- `parseInt(digits, 10)` on a nonempty run of decimal digits. -/
def digitsToNat (ds : List Nat) : Nat := ds.foldl (fun a c => a * 10 + (c - 48)) 0

/-- Consume a literal character sequence, returning the rest. -/
def stripLitB : List Nat → List Nat → Option (List Nat)
  | [], s => some s
  | _ :: _, [] => none
  | l :: ls, c :: cs => if l = c then stripLitB ls cs else none

/-- Match `(\d+)`: a nonempty maximal digit run, returned as its value. -/
def takeNum (s : List Nat) : Option (Nat × List Nat) :=
  let d := s.takeWhile isDigitB
  if d.length = 0 then none else some (digitsToNat d, s.dropWhile isDigitB)

/-- Match `\s+`: a nonempty maximal whitespace run. -/
def skipSpaces1 (s : List Nat) : Option (List Nat) :=
  let w := s.takeWhile isSpaceB
  if w.length = 0 then none else some (s.dropWhile isSpaceB)

/-- Match `\d{n}`: exactly `n` digits. -/
def takeDigitsN : Nat → List Nat → Option (List Nat × List Nat)
  | 0, s => some ([], s)
  | _ + 1, [] => none
  | n + 1, c :: cs =>
    if isDigitB c then (takeDigitsN n cs).map (fun p => (c :: p.1, p.2)) else none

/-- Leftmost-match search: `String.match` semantics for a deterministic
pattern matcher `f` tried at each successive position. -/
def findFirstMap {α : Type} (f : List Nat → Option α) : List Nat → Option α
  | [] => none
  | c :: rest =>
    match f (c :: rest) with
    | some r => some r
    | none => findFirstMap f rest

/-- Try to match `\/Type\s*\/Sig\b` at the head of `s`; returns the
length of the match (the `\b` consumes nothing). -/
def matchMarkerAt (s : List Nat) : Option Nat :=
  match stripLitB (strBytes ("/Type")) s with
  | none => none
  | some s1 =>
    let k := (s1.takeWhile isSpaceB).length
    match stripLitB (strBytes ("/Sig")) (s1.dropWhile isSpaceB) with
    | none => none
    | some s3 =>
      match s3 with
      | [] => some (9 + k)
      | c :: _ => if isWordB c then none else some (9 + k)

/-- First marker match in a suffix: relative start position and length. -/
def findMarkerAux : List Nat → Option (Nat × Nat)
  | [] => none
  | c :: rest =>
    match matchMarkerAt (c :: rest) with
    | some len => some (0, len)
    | none =>
      match findMarkerAux rest with
      | some (q, len) => some (q + 1, len)
      | none => none

/-- `sigRegex.exec` from offset `pos`: absolute match start and the
`lastIndex` that the global regex leaves behind (match end). -/
def findMarker (doc : List Nat) (pos : Nat) : Option (Nat × Nat) :=
  match findMarkerAux (doc.drop pos) with
  | some (q, len) => some (pos + q, pos + q + len)
  | none => none

/-- `pdfString.substring(max(0, i - 5000), min(len, i + 10000))`:
the bounded search window around a marker occurrence. -/
def windowCtx (doc : List Nat) (p : Nat) : List Nat :=
  let s := p - 5000
  let e := min doc.length (p + 10000)
  (doc.drop s).take (e - s)

/-- Match `\/ByteRange\s*\[\s*(\d+)\s+(\d+)\s+(\d+)\s+(\d+)\s*\]` at the
head of the input, returning the four parsed integers. -/
def matchBRAt (s0 : List Nat) : Option (List Nat) := do
  let s1 ← stripLitB (strBytes ("/ByteRange")) s0
  let s2 := s1.dropWhile isSpaceB
  let s3 ← stripLitB [91] s2
  let s4 := s3.dropWhile isSpaceB
  let (n1, s5) ← takeNum s4
  let s6 ← skipSpaces1 s5
  let (n2, s7) ← takeNum s6
  let s8 ← skipSpaces1 s7
  let (n3, s9) ← takeNum s8
  let s10 ← skipSpaces1 s9
  let (n4, s11) ← takeNum s10
  let s12 := s11.dropWhile isSpaceB
  let _ ← stripLitB [93] s12
  pure [n1, n2, n3, n4]

/-- Match `\/Contents\s*<([0-9A-Fa-f]+)>` at the head of the input,
returning the captured hex digit codes. -/
def matchContentsAt (s0 : List Nat) : Option (List Nat) := do
  let s1 ← stripLitB (strBytes ("/Contents")) s0
  let s2 := s1.dropWhile isSpaceB
  let s3 ← stripLitB [60] s2
  let h := s3.takeWhile isHexB
  if h.length = 0 then none
  else do
    let _ ← stripLitB [62] (s3.dropWhile isHexB)
    pure h

/-- Match `lit ++ \s*\(([^)]*)\)` at the head of the input (the
`/Reason`, `/Location`, `/ContactInfo`, `/Name` patterns). -/
def matchTextAt (lit : List Nat) (s0 : List Nat) : Option (List Nat) := do
  let s1 ← stripLitB lit s0
  let s2 := s1.dropWhile isSpaceB
  let s3 ← stripLitB [40] s2
  let t := s3.takeWhile (fun c => decide (c ≠ 41))
  let _ ← stripLitB [41] (s3.dropWhile (fun c => decide (c ≠ 41)))
  pure t

/-- Match `\/M\s*\(D:(\d{4})(\d{2})(\d{2})(\d{2})(\d{2})(\d{2})` at the
head of the input, returning the six capture groups. -/
def matchMAt (s0 : List Nat) : Option (List (List Nat)) := do
  let s1 ← stripLitB (strBytes ("/M")) s0
  let s2 := s1.dropWhile isSpaceB
  let s3 ← stripLitB (strBytes ("(D:")) s2
  let (y, s4) ← takeDigitsN 4 s3
  let (mo, s5) ← takeDigitsN 2 s4
  let (d, s6) ← takeDigitsN 2 s5
  let (h, s7) ← takeDigitsN 2 s6
  let (mi, s8) ← takeDigitsN 2 s7
  let (se, _) ← takeDigitsN 2 s8
  pure [y, mo, d, h, mi, se]

/-- The template literal `Y-M-DTh:m:s` built from the `/M` groups
(45 is the hyphen, 84 is `T`, 58 is the colon). -/
def fmtSigningTime (g : List (List Nat)) : List Nat :=
  match g with
  | [y, mo, d, h, mi, se] =>
    y ++ [45] ++ mo ++ [45] ++ d ++ [84] ++ h ++ [58] ++ mi ++ [58] ++ se
  | _ => []

/-- UTF-8 continuation byte. -/
def isContB (c : Nat) : Bool := decide (128 ≤ c ∧ c ≤ 191)

/-- `decodeURIComponent(escape(s))` on a latin1 string: strict UTF-8
decoding of the byte sequence (URIError, i.e. `none`, on any malformed,
overlong, surrogate or out-of-range sequence). -/
def utf8Decode : List Nat → Option (List Nat)
  | [] => some []
  | b :: rest =>
    if b < 128 then (utf8Decode rest).map (fun t => b :: t)
    else if 194 ≤ b ∧ b ≤ 223 then
      match rest with
      | c1 :: r =>
        if isContB c1 then (utf8Decode r).map (fun t => ((b - 192) * 64 + (c1 - 128)) :: t)
        else none
      | [] => none
    else if 224 ≤ b ∧ b ≤ 239 then
      match rest with
      | c1 :: c2 :: r =>
        if isContB c1 ∧ isContB c2 then
          let cp := (b - 224) * 4096 + (c1 - 128) * 64 + (c2 - 128)
          if 2048 ≤ cp ∧ ¬(55296 ≤ cp ∧ cp ≤ 57343) then
            (utf8Decode r).map (fun t => cp :: t)
          else none
        else none
      | _ => none
    else if 240 ≤ b ∧ b ≤ 244 then
      match rest with
      | c1 :: c2 :: c3 :: r =>
        if isContB c1 ∧ isContB c2 ∧ isContB c3 then
          let cp := (b - 240) * 262144 + (c1 - 128) * 4096 + (c2 - 128) * 64 + (c3 - 128)
          if 65536 ≤ cp ∧ cp ≤ 1114111 then (utf8Decode r).map (fun t => cp :: t)
          else none
        else none
      | _ => none
    else none

/-- Apply the text decoding to an optional regex capture; the outer
`none` is a thrown `URIError`, `some none` is an absent field. -/
def decodeOpt (m : Option (List Nat)) : Option (Option (List Nat)) :=
  match m with
  | none => some none
  | some s => (utf8Decode s).map some

/-- `parseInt(twoHexChars, 16)` digit value. -/
def hexDigitVal (c : Nat) : Nat :=
  if 48 ≤ c ∧ c ≤ 57 then c - 48
  else if 65 ≤ c ∧ c ≤ 70 then c - 55
  else if 97 ≤ c ∧ c ≤ 102 then c - 87
  else 0

/-- The byte-building loop of `hexToBytes`: pairs of hex digits become
bytes; a trailing lone digit (odd-length input) is dropped, because its
write lands beyond the end of the truncated-length typed array and
typed-array out-of-bounds writes are silently ignored. -/
def hexPairs : List Nat → List Nat
  | c1 :: c2 :: rest => (hexDigitVal c1 * 16 + hexDigitVal c2) :: hexPairs rest
  | _ => []

/-- The trailing-zero stripping loop of `hexToBytes`: decrement
`actualLength` while the last byte is zero, then `slice(0, actualLength)`. -/
def stripTrailingZeros (bs : List Nat) : List Nat :=
  (bs.reverse.dropWhile (fun b => decide (b = 0))).reverse

/-- `hexToBytes`: `new Uint8Array(hex.length / 2)` never throws here —
a fractional length goes through ToIndex (ES2017+), which truncates
`1.5` to `1`, so an odd-length hex string yields a buffer of
`⌊length / 2⌋` bytes whose final lone-digit write is out of bounds and
silently ignored.  The bytes are built pairwise and trailing zero
padding is stripped. -/
def hexToBytes (hex : List Nat) : List Nat :=
  stripTrailingZeros (hexPairs hex)

/-- The `ExtractedSignature` record of the source. -/
structure ExtractedSignature where
  index : Nat
  contents : List Nat
  byteRange : List Nat
  reason : Option (List Nat)
  location : Option (List Nat)
  contactInfo : Option (List Nat)
  name : Option (List Nat)
  signingTime : Option (List Nat)
deriving DecidableEq

/-- Process one marker occurrence's search window: the body of the
`while` loop of `extractSignatures`.  Returns the pushed record (if
any) and the value of `sigIndex` afterwards.  `continue` on a missing
byte-range or payload happens before `sigIndex++`; an odd-length hex
payload does not throw (its buffer length truncates, see `hexToBytes`);
a URIError thrown by a text-field decode happens after `sigIndex++`
(the `index: sigIndex++` field is evaluated first in the object
literal), so that path consumes the index without pushing. -/
def processContext (ctx : List Nat) (sigIndex : Nat) : Option ExtractedSignature × Nat :=
  match findFirstMap matchBRAt ctx with
  | none => (none, sigIndex)
  | some br =>
    match findFirstMap matchContentsAt ctx with
    | none => (none, sigIndex)
    | some hex =>
      let cb := hexToBytes hex
      let reasonM := findFirstMap (matchTextAt (strBytes ("/Reason"))) ctx
      let locM := findFirstMap (matchTextAt (strBytes ("/Location"))) ctx
      let contactM := findFirstMap (matchTextAt (strBytes ("/ContactInfo"))) ctx
      let nameM := findFirstMap (matchTextAt (strBytes ("/Name"))) ctx
      let timeM := findFirstMap matchMAt ctx
      match decodeOpt reasonM with
      | none => (none, sigIndex + 1)
      | some reasonV =>
        match decodeOpt locM with
        | none => (none, sigIndex + 1)
        | some locV =>
          match decodeOpt contactM with
          | none => (none, sigIndex + 1)
          | some contactV =>
            match decodeOpt nameM with
            | none => (none, sigIndex + 1)
            | some nameV =>
              (some { index := sigIndex, contents := cb, byteRange := br,
                      reason := reasonV, location := locV,
                      contactInfo := contactV, name := nameV,
                      signingTime := timeM.map fmtSigningTime }, sigIndex + 1)

/-- One iteration of the `while ((sigMatch = sigRegex.exec(pdfString))
!== null)` loop: find the next marker, process its window, push or drop
the record, and continue (`rec`) from the end of the match with the
updated `sigIndex`. -/
def scanStep (doc : List Nat) (rec : Nat → Nat → List ExtractedSignature)
    (pos sigIndex : Nat) : List ExtractedSignature :=
  match findMarker doc pos with
  | none => []
  | some (p, matchEnd) =>
    match processContext (windowCtx doc p) sigIndex with
    | (some sig, idx2) => sig :: rec matchEnd idx2
    | (none, idx2) => rec matchEnd idx2

/-- The scan loop itself.  Each iteration advances the position by the
match length (at least nine characters), so `doc.length + 1` units of
fuel always suffice. -/
def scanLoop (doc : List Nat) : Nat → Nat → Nat → List ExtractedSignature
  | 0 => fun _ _ => []
  | fuel + 1 => scanStep doc (scanLoop doc fuel)

/-- `extractSignatures(pdfBytes)`. -/
def extractSignatures (doc : List Nat) : List ExtractedSignature :=
  scanLoop doc (doc.length + 1) 0 0

/-- `countSignatures(pdfBytes)`. -/
def countSignatures (doc : List Nat) : Nat := (extractSignatures doc).length

/-- `result.coverageStatus`; `part` renders the source's string literal
for a partially covering byte range. -/
inductive CoverageStatus where
  | full
  | part
  | unknown
deriving DecidableEq

/-- The attributes of a `forge.pki.Certificate` that the validator
reads: subject/issuer fields via `getField`, the validity window, the
serial number and the two algorithm identifiers (`siginfo?.algorithmOid`
and `signatureOid`, both possibly absent). -/
structure Certificate where
  subjectCN : Option String
  subjectO : Option String
  subjectE : Option String
  subjectEmail : Option String
  issuerCN : Option String
  issuerO : Option String
  notBefore : Int
  notAfter : Int
  serialNumber : String
  algorithmOid : Option String
  signatureOid : Option String
deriving DecidableEq

/-- What `forge.pkcs7.messageFromAsn1` yields and the validator uses:
the embedded certificate chain and the `rawCapture.authenticatedAttributes`
list (attribute type OID paired with its date value). -/
structure P7 where
  certificates : List Certificate
  authAttrs : Option (List (String × Int))

/-- A thrown JavaScript value: `some message` for an `Error`,
`none` for anything else. -/
abbrev JsErr := Option String

/-- `e instanceof Error ? e.message : 'Failed to parse signature'`. -/
def errMsgOf (e : JsErr) : String :=
  match e with
  | some m => m
  | none => "Failed to parse signature"

/-- `forge.pki.oids.signingTime`. -/
def oidSigningTime : String := "1.2.840.113549.1.9.5"

/-- `digestAlgorithms[oid] || oid || 'Unknown'`. -/
def getDigestAlgorithmName (oid : String) : String :=
  if oid = "1.2.840.113549.2.5" then "MD5"
  else if oid = "1.3.14.3.2.26" then "SHA-1"
  else if oid = "2.16.840.1.101.3.4.2.1" then "SHA-256"
  else if oid = "2.16.840.1.101.3.4.2.2" then "SHA-384"
  else if oid = "2.16.840.1.101.3.4.2.3" then "SHA-512"
  else if oid = "2.16.840.1.101.3.4.2.4" then "SHA-224"
  else if oid = "" then "Unknown"
  else oid

/-- `signatureAlgorithms[oid] || oid || 'Unknown'`. -/
def getSignatureAlgorithmName (oid : String) : String :=
  if oid = "1.2.840.113549.1.1.1" then "RSA"
  else if oid = "1.2.840.113549.1.1.5" then "RSA with SHA-1"
  else if oid = "1.2.840.113549.1.1.11" then "RSA with SHA-256"
  else if oid = "1.2.840.113549.1.1.12" then "RSA with SHA-384"
  else if oid = "1.2.840.113549.1.1.13" then "RSA with SHA-512"
  else if oid = "1.2.840.10045.2.1" then "ECDSA"
  else if oid = "1.2.840.10045.4.1" then "ECDSA with SHA-1"
  else if oid = "1.2.840.10045.4.3.2" then "ECDSA with SHA-256"
  else if oid = "1.2.840.10045.4.3.3" then "ECDSA with SHA-384"
  else if oid = "1.2.840.10045.4.3.4" then "ECDSA with SHA-512"
  else if oid = "" then "Unknown"
  else oid

/-- The `SignatureValidationResult` record of the source; `algorithms`
is the `(digest, signature)` pair. -/
structure SignatureValidationResult where
  signatureIndex : Nat
  isValid : Bool
  signerName : String
  signerOrg : Option String
  signerEmail : Option String
  issuer : String
  issuerOrg : Option String
  signatureDate : Option Int
  validFrom : Int
  validTo : Int
  isExpired : Bool
  isSelfSigned : Bool
  isTrusted : Bool
  algorithms : String × String
  serialNumber : String
  reason : Option (List Nat)
  location : Option (List Nat)
  contactInfo : Option (List Nat)
  byteRange : List Nat
  coverageStatus : CoverageStatus
  errorMessage : Option String
deriving DecidableEq

/-- The initial `result` object of `validateSignature` (all safe
defaults; metadata copied directly from the extracted signature). -/
def initResult (signature : ExtractedSignature) : SignatureValidationResult :=
  { signatureIndex := signature.index
    isValid := false
    signerName := "Unknown"
    signerOrg := none
    signerEmail := none
    issuer := "Unknown"
    issuerOrg := none
    signatureDate := none
    validFrom := 0
    validTo := 0
    isExpired := false
    isSelfSigned := false
    isTrusted := false
    algorithms := ("Unknown", "Unknown")
    serialNumber := ""
    reason := signature.reason
    location := signature.location
    contactInfo := signature.contactInfo
    byteRange := signature.byteRange
    coverageStatus := CoverageStatus.unknown
    errorMessage := none }

/-- The signer-information block: subject/issuer fields, validity
window, serial number, and the expiry check
`now > result.validTo || now < result.validFrom`. -/
def extractSignerFields (c : Certificate) (now : Int) (r : SignatureValidationResult) :
    SignatureValidationResult :=
  { r with
    signerName := c.subjectCN.getD ("Unknown")
    signerOrg := c.subjectO
    signerEmail := match c.subjectE with
      | some e => some e
      | none => c.subjectEmail
    issuer := c.issuerCN.getD ("Unknown")
    issuerOrg := c.issuerO
    validFrom := c.notBefore
    validTo := c.notAfter
    serialNumber := c.serialNumber
    isExpired := decide (c.notAfter < now) || decide (now < c.notBefore) }

/-- The `for (const cert of p7.certificates)` loop of the trust check
(`trustedCert.isIssuer(cert) || cert.serialNumber === trusted.serialNumber`,
with early exit on the first hit). -/
def chainTrustLoop (isIssuerF : Certificate → Certificate → Except JsErr Bool)
    (tc : Certificate) : List Certificate → Except JsErr Bool
  | [] => Except.ok false
  | c :: cs =>
    match isIssuerF tc c with
    | Except.error e => Except.error e
    | Except.ok b =>
      if b = true ∨ c.serialNumber = tc.serialNumber then Except.ok true
      else chainTrustLoop isIssuerF tc cs

/-- The body of the `try` block of the trust check: direct-issuer test,
serial identity test, chain loop, then the three-way disjunction. -/
def trustEval (isIssuerF : Certificate → Certificate → Except JsErr Bool)
    (tc signerCert : Certificate) (certs : List Certificate) : Except JsErr Bool :=
  match isIssuerF tc signerCert with
  | Except.error e => Except.error e
  | Except.ok isTrustedIssuer =>
    let isSameCert := decide (signerCert.serialNumber = tc.serialNumber)
    match chainTrustLoop isIssuerF tc certs with
    | Except.error e => Except.error e
    | Except.ok chainTrusted => Except.ok (isTrustedIssuer || isSameCert || chainTrusted)

/-- The new value of `result.isTrusted`: unchanged when no trusted
certificate was supplied, the `trustEval` verdict when it returns, and
`false` when it throws (the inner `catch`). -/
def computeTrust (isIssuerF : Certificate → Certificate → Except JsErr Bool)
    (trustedCert : Option Certificate) (certs : List Certificate)
    (signerCert : Certificate) (old : Bool) : Bool :=
  match trustedCert with
  | none => old
  | some tc =>
    match trustEval isIssuerF tc signerCert certs with
    | Except.ok b => b
    | Except.error _ => false

/-- Lines 173-195 of the validator as a record update. -/
def applyTrust (isIssuerF : Certificate → Certificate → Except JsErr Bool)
    (trustedCert : Option Certificate) (certs : List Certificate)
    (signerCert : Certificate) (r : SignatureValidationResult) : SignatureValidationResult :=
  { r with isTrusted := computeTrust isIssuerF trustedCert certs signerCert r.isTrusted }

/-- The algorithm-name block. -/
def applyAlgorithms (c : Certificate) (r : SignatureValidationResult) :
    SignatureValidationResult :=
  { r with algorithms := (getDigestAlgorithmName (c.algorithmOid.getD ("")),
                          getSignatureAlgorithmName (c.signatureOid.getD (""))) }

/-- The new value of `result.signatureDate`: the dictionary signing time
if the locator captured one, else the first `signingTime` authenticated
attribute, else unchanged. -/
def computeSigDate (parseDate : List Nat → Int) (signature : ExtractedSignature)
    (p7 : P7) (old : Option Int) : Option Int :=
  match signature.signingTime with
  | some st => some (parseDate st)
  | none =>
    match p7.authAttrs with
    | some attrs =>
      match attrs.find? (fun a => a.1 == oidSigningTime) with
      | some a => some a.2
      | none => old
    | none => old

/-- The signing-time block as a record update. -/
def applySignatureDate (parseDate : List Nat → Int) (signature : ExtractedSignature)
    (p7 : P7) (r : SignatureValidationResult) : SignatureValidationResult :=
  { r with signatureDate := computeSigDate parseDate signature p7 r.signatureDate }

/-- The new value of `result.coverageStatus` from the byte-range tuple:
`full` when `start2 + len2` equals the document length, `part` when it
is smaller, unchanged otherwise (also when the tuple is not 4 long). -/
def computeCoverage (signature : ExtractedSignature) (pdfLen : Nat)
    (old : CoverageStatus) : CoverageStatus :=
  if signature.byteRange.length = 4 then
    let expectedEnd := signature.byteRange.getD 2 0 + signature.byteRange.getD 3 0
    if expectedEnd = pdfLen then CoverageStatus.full
    else if expectedEnd < pdfLen then CoverageStatus.part
    else old
  else old

/-- The byte-range coverage block as a record update. -/
def applyCoverage (signature : ExtractedSignature) (pdfBytes : List Nat)
    (r : SignatureValidationResult) : SignatureValidationResult :=
  { r with coverageStatus := computeCoverage signature pdfBytes.length r.coverageStatus }

/-- `validateSignature(signature, pdfBytes, trustedCert?)`.  `p7parse`
is the oracle for `forge.asn1.fromDer` + `forge.pkcs7.messageFromAsn1`
applied to the payload bytes, `isIssuerF` the oracle for
`Certificate.isIssuer` (also used for the self-signed check, whose
failure reaches the outer `catch`), `now` the evaluation time and
`parseDate` the oracle for `new Date(isoString)`. -/
def validateSignature (p7parse : List Nat → Except JsErr P7)
    (isIssuerF : Certificate → Certificate → Except JsErr Bool)
    (now : Int) (parseDate : List Nat → Int)
    (signature : ExtractedSignature) (pdfBytes : List Nat)
    (trustedCert : Option Certificate) : SignatureValidationResult :=
  let result := initResult signature
  match p7parse signature.contents with
  | Except.error e => { result with errorMessage := some (errMsgOf e) }
  | Except.ok p7 =>
    match p7.certificates with
    | [] => { result with errorMessage := some ("No certificates found in signature") }
    | signerCert :: _ =>
      let r1 := extractSignerFields signerCert now result
      match isIssuerF signerCert signerCert with
      | Except.error e => { r1 with errorMessage := some (errMsgOf e) }
      | Except.ok selfSigned =>
        let r2 := { r1 with isSelfSigned := selfSigned }
        let r3 := applyTrust isIssuerF trustedCert p7.certificates signerCert r2
        let r4 := applyAlgorithms signerCert r3
        let r5 := applySignatureDate parseDate signature p7 r4
        let r6 := applyCoverage signature pdfBytes r5
        { r6 with isValid := true }

/-- `validatePdfSignatures(pdfBytes, trustedCert?)`: run the locator
once, then the validator over each extracted signature in order. -/
def validatePdfSignatures (p7parse : List Nat → Except JsErr P7)
    (isIssuerF : Certificate → Certificate → Except JsErr Bool)
    (now : Int) (parseDate : List Nat → Int)
    (pdfBytes : List Nat) (trustedCert : Option Certificate) :
    List SignatureValidationResult :=
  (extractSignatures pdfBytes).map
    (fun sig => validateSignature p7parse isIssuerF now parseDate sig pdfBytes trustedCert)

/-- The `protocol` and `hostname` of a WHATWG-parsed URL (the parts the
worker reads); the parser itself is an oracle parameter. -/
structure URLParts where
  protocol : List Nat
  hostname : List Nat
deriving DecidableEq

/-- ASCII lowercasing, the effect of the `i` regex flag on the
worker's ASCII-only patterns. -/
def lowerB (c : Nat) : Nat := if 65 ≤ c ∧ c ≤ 90 then c + 32 else c

/-- Whether the first list is an initial segment of the second
(JS `String.startsWith` / anchored regex). -/
def leadsWith : List Nat → List Nat → Bool
  | [], _ => true
  | _ :: _, [] => false
  | p :: ps, c :: cs => decide (p = c) && leadsWith ps cs

/-- JS `$`-anchored match: the pattern ends the string. -/
def endsWithB (pat s : List Nat) : Bool := leadsWith pat.reverse s.reverse

/-- JS `String.includes` / unanchored regex: substring test. -/
def containsB (pat : List Nat) : List Nat → Bool
  | [] => decide (pat.length = 0)
  | c :: rest => leadsWith pat (c :: rest) || containsB pat rest

/-- `ALLOWED_PATTERNS.some(pattern => pattern.test(urlString))`:
`\.crt$`, `\.cer$`, `\.pem$`, `\/certs\/`, `\/ocsp`, `\/crl`,
`caIssuers`, all case-insensitive, tested on the whole URL string. -/
def matchesCertPattern (u : List Nat) : Bool :=
  let l := u.map lowerB
  endsWithB (strBytes (".crt")) l || endsWithB (strBytes (".cer")) l ||
  endsWithB (strBytes (".pem")) l || containsB (strBytes ("/certs/")) l ||
  containsB (strBytes ("/ocsp")) l || containsB (strBytes ("/crl")) l ||
  containsB (strBytes ("caissuers")) l

/-- `BLOCKED_DOMAINS.some(domain => url.hostname.includes(domain))`. -/
def blockedDomainHit (h : List Nat) : Bool :=
  containsB (strBytes ("localhost")) h || containsB (strBytes ("127.0.0.1")) h ||
  containsB (strBytes ("0.0.0.0")) h

/-- The private-range regexes `^10\.`, `^172\.(1[6-9]|2[0-9]|3[0-1])\.`
and `^192\.168\.` on the hostname. -/
def privateHost (h : List Nat) : Bool :=
  leadsWith (strBytes ("10.")) h ||
  (match h with
   | 49 :: 55 :: 50 :: 46 :: d1 :: d2 :: 46 :: _ =>
     decide ((d1 = 49 ∧ 54 ≤ d2 ∧ d2 ≤ 57) ∨
             (d1 = 50 ∧ 48 ≤ d2 ∧ d2 ≤ 57) ∨
             (d1 = 51 ∧ (d2 = 48 ∨ d2 = 49)))
   | _ => false) ||
  leadsWith (strBytes ("192.168.")) h

/-- `isValidCertificateUrl(urlString)`: a URL that fails to parse, has a
non-http(s) scheme, a blocked or private host, or matches no certificate
pattern is rejected; `parseURL` is the `new URL` oracle. -/
def isValidCertificateUrl (parseURL : List Nat → Option URLParts)
    (u : List Nat) : Bool :=
  match parseURL u with
  | none => false
  | some url =>
    if ¬(url.protocol = strBytes ("http:") ∨ url.protocol = strBytes ("https:")) then false
    else if blockedDomainHit url.hostname then false
    else if privateHost url.hostname then false
    else matchesCertPattern u

/-- `isAllowedOrigin(origin)` (the trailing-slash strip on the
allow-list entries is a no-op: neither entry ends in a slash). -/
def isAllowedOrigin (origin : Option (List Nat)) : Bool :=
  match origin with
  | none => false
  | some o =>
    leadsWith (strBytes ("https://www.Wrapdf.com")) o ||
    leadsWith (strBytes ("https://Wrapdf.com")) o

/-- The parts of the incoming request that the worker reads. -/
structure WorkerRequest where
  method : List Nat
  origin : Option (List Nat)
  urlParam : Option (List Nat)

/-- Which structured body a non-proxied response carries. -/
inductive ResponseBody where
  | empty
  | forbiddenOrigin
  | methodNotAllowed
  | missingUrl
  | invalidUrl
deriving DecidableEq

/-- What the worker does with a request: answer directly with a status
and body, or fetch the target URL upstream. -/
inductive WorkerAction where
  | respond (status : Nat) (body : ResponseBody)
  | proxyFetch (targetUrl : List Nat)
deriving DecidableEq

/-- The `fetch` handler of the worker up to the outbound fetch decision:
OPTIONS preflight, origin gate, method gate, missing-parameter gate,
certificate-URL gate, then the proxied fetch. -/
def workerFetch (parseURL : List Nat → Option URLParts) (req : WorkerRequest) :
    WorkerAction :=
  if req.method = strBytes ("OPTIONS") then WorkerAction.respond 204 ResponseBody.empty
  else if isAllowedOrigin req.origin = false then
    WorkerAction.respond 403 ResponseBody.forbiddenOrigin
  else if ¬ req.method = strBytes ("GET") then
    WorkerAction.respond 405 ResponseBody.methodNotAllowed
  else
    match req.urlParam with
    | none => WorkerAction.respond 400 ResponseBody.missingUrl
    | some u =>
      if isValidCertificateUrl parseURL u = false then
        WorkerAction.respond 403 ResponseBody.invalidUrl
      else WorkerAction.proxyFetch u

/-- A document whose first signature dictionary is malformed (it has a
`/Contents` entry but no `/ByteRange`) and whose second, nearby
dictionary is well formed. -/
def exDocC6 : List Nat :=
  strBytes ("/Type /Sig /Contents <AB> /Type /Sig /ByteRange [0 1 2 3] /Contents <CD>")

/-- The first dictionary's own region of `exDocC6`. -/
def exDocC6FirstDict : List Nat := strBytes ("/Type /Sig /Contents <AB> ")

/-- A single-signature document whose `/Contents` hex string has odd
length (`ABC`): the typed-array length truncates, the lone trailing
digit is dropped, and the record is still pushed. -/
def exDoc7 : List Nat :=
  strBytes ("/Type /Sig /ByteRange [0 1 2 3] /Contents <ABC>")

/-- A single-signature document whose `/Reason` text holds the byte
255, which is not valid UTF-8: its decode throws a URIError after the
record's index has been consumed, so the signature is dropped. -/
def exDocC7c : List Nat :=
  strBytes ("/Type /Sig /ByteRange [0 1 2 3] /Contents <AB> /Reason (\u00FF)")

/-- A concrete certificate for witnesses. -/
def certEx : Certificate :=
  { subjectCN := some ("Alice"), subjectO := none, subjectE := none,
    subjectEmail := none, issuerCN := some ("Root"), issuerO := none,
    notBefore := 10, notAfter := 20, serialNumber := "01",
    algorithmOid := none, signatureOid := none }

/-- A concrete extracted signature for witnesses, with the byte range
of the spec's coverage scenario. -/
def sigEx : ExtractedSignature :=
  { index := 0, contents := [1], byteRange := [0, 100, 200, 50],
    reason := none, location := none, contactInfo := none, name := none,
    signingTime := none }

/-- A concrete PKCS#7 parse result for witnesses. -/
def p7Ex : P7 := { certificates := [certEx], authAttrs := none }

/-- A parser oracle that always succeeds with `p7Ex`. -/
def p7parseEx : List Nat → Except JsErr P7 := fun _ => Except.ok p7Ex

/-- A parser oracle that always throws a DER decoding error. -/
def p7parseFailEx : List Nat → Except JsErr P7 :=
  fun _ => Except.error (some ("bad DER"))

/-- An issuer oracle that never throws and never matches. -/
def isIssuerEx : Certificate → Certificate → Except JsErr Bool :=
  fun _ _ => Except.ok false

/-- A date oracle for witnesses. -/
def parseDateEx : List Nat → Int := fun _ => 0

/-- A URL-parser oracle for the worker witness: every string parses to
an `http:` URL at host `localhost`. -/
def parseURLEx : List Nat → Option URLParts :=
  fun _ => some { protocol := strBytes ("http:"), hostname := strBytes ("localhost") }

/-- A concrete allow-listed GET request whose `url` parameter targets a
blocked loopback host. -/
def reqEx : WorkerRequest :=
  { method := strBytes ("GET"),
    origin := some (strBytes ("https://Wrapdf.com")),
    urlParam := some (strBytes ("http://localhost/ca.crt")) }

theorem dropWhile_zero_idem (l : List Nat) :
    List.dropWhile (fun b => decide (b = 0)) (List.dropWhile (fun b => decide (b = 0)) l) =
      List.dropWhile (fun b => decide (b = 0)) l := by
  induction l with
  | nil => rfl
  | cons a t ih =>
    by_cases h : a = 0
    · simp [List.dropWhile_cons, h, ih]
    · simp [List.dropWhile_cons, h]

theorem head_dropWhile_zero (l : List Nat) :
    ¬ (List.dropWhile (fun b => decide (b = 0)) l).head? = some 0 := by
  induction l with
  | nil => simp
  | cons a t ih =>
    by_cases h : a = 0
    · simpa [List.dropWhile_cons, h] using ih
    · simp [List.dropWhile_cons, h]

/-- C8: the trailing-zero stripping of `hexToBytes` is idempotent, an
already-stripped byte list (empty or ending in a non-zero byte) is
returned unchanged, and the output never ends in a zero byte. -/
theorem claim_C8 (bs : List Nat) :
    stripTrailingZeros (stripTrailingZeros bs) = stripTrailingZeros bs ∧
    (¬ bs.getLast? = some 0 → stripTrailingZeros bs = bs) ∧
    ¬ (stripTrailingZeros bs).getLast? = some 0 := by
  refine ⟨?_, ?_, ?_⟩
  · unfold stripTrailingZeros
    rw [List.reverse_reverse, dropWhile_zero_idem]
  · intro h
    unfold stripTrailingZeros
    have hh : ¬ bs.reverse.head? = some 0 := by
      rw [List.head?_reverse]; exact h
    cases hrev : bs.reverse with
    | nil =>
      have hb : bs = [] := by
        have := congrArg List.reverse hrev
        simpa using this
      simp [hb]
    | cons a t =>
      rw [hrev] at hh
      have ha : ¬ a = 0 := fun h0 => hh (by simp [h0])
      rw [List.dropWhile_cons, if_neg (by simpa using ha)]
      rw [← hrev, List.reverse_reverse]
  · unfold stripTrailingZeros
    rw [List.getLast?_reverse]
    exact head_dropWhile_zero bs.reverse

/-- C8 witness: the already-stripped list `[1]`. -/
theorem claim_C8_witness :
    stripTrailingZeros (stripTrailingZeros [1]) = stripTrailingZeros [1] ∧
    stripTrailingZeros [1] = [1] ∧
    ¬ (stripTrailingZeros [1]).getLast? = some 0 :=
  ⟨(claim_C8 [1]).1, (claim_C8 [1]).2.1 (by decide), (claim_C8 [1]).2.2⟩

theorem isValidCertificateUrl_false (parseURL : List Nat → Option URLParts)
    (u : List Nat) (parts : URLParts) (hp : parseURL u = some parts)
    (hbad : matchesCertPattern u = false ∨ blockedDomainHit parts.hostname = true ∨
            privateHost parts.hostname = true ∨
            ¬(parts.protocol = strBytes ("http:") ∨ parts.protocol = strBytes ("https:"))) :
    isValidCertificateUrl parseURL u = false := by
  simp only [isValidCertificateUrl, hp]
  split_ifs with h1 h2 h3
  any_goals rfl
  rcases hbad with h | h | h | h
  · exact h
  · exact absurd h h2
  · exact absurd h h3
  · exact absurd h1 h

/-- C9: an allow-listed GET request whose `url` parameter parses but
matches no certificate pattern, or targets a blocked or private host,
or uses a non-http(s) scheme, is answered with the 403 structured
`invalidUrl` error and the target is never fetched. -/
theorem claim_C9 (parseURL : List Nat → Option URLParts) (req : WorkerRequest)
    (u : List Nat) (parts : URLParts)
    (hor : isAllowedOrigin req.origin = true)
    (hm : req.method = strBytes ("GET"))
    (hu : req.urlParam = some u)
    (hp : parseURL u = some parts)
    (hbad : matchesCertPattern u = false ∨ blockedDomainHit parts.hostname = true ∨
            privateHost parts.hostname = true ∨
            ¬(parts.protocol = strBytes ("http:") ∨ parts.protocol = strBytes ("https:"))) :
    workerFetch parseURL req = WorkerAction.respond 403 ResponseBody.invalidUrl ∧
    ∀ t, ¬ workerFetch parseURL req = WorkerAction.proxyFetch t := by
  have hvalid := isValidCertificateUrl_false parseURL u parts hp hbad
  have hmain : workerFetch parseURL req = WorkerAction.respond 403 ResponseBody.invalidUrl := by
    simp only [workerFetch, hm, hu]
    rw [if_neg (by decide : ¬ strBytes ("GET") = strBytes ("OPTIONS"))]
    rw [if_neg (by simp [hor])]
    rw [if_neg (by simp)]
    rw [if_pos hvalid]
  exact ⟨hmain, fun t h => by rw [hmain] at h; cases h⟩

/-- C9 witness: a GET request from `https://Wrapdf.com` for a `.crt`
URL whose host is the blocked `localhost`. -/
theorem claim_C9_witness :
    workerFetch parseURLEx reqEx = WorkerAction.respond 403 ResponseBody.invalidUrl :=
  (claim_C9 parseURLEx reqEx (strBytes ("http://localhost/ca.crt"))
    { protocol := strBytes ("http:"), hostname := strBytes ("localhost") }
    (by decide) rfl rfl rfl (Or.inr (Or.inl (by decide)))).1

/-- C10: when no trusted certificate is supplied, the result's
`isTrusted` is `false` on every path of `validateSignature`. -/
theorem claim_C10 (p7parse : List Nat → Except JsErr P7)
    (isIssuerF : Certificate → Certificate → Except JsErr Bool)
    (now : Int) (parseDate : List Nat → Int)
    (sig : ExtractedSignature) (pdf : List Nat) :
    (validateSignature p7parse isIssuerF now parseDate sig pdf none).isTrusted = false := by
  unfold validateSignature
  cases hE : p7parse sig.contents with
  | error e => rfl
  | ok p7 =>
    obtain ⟨certs, attrs⟩ := p7
    cases certs with
    | nil => rfl
    | cons c cs =>
      dsimp only
      cases hI : isIssuerF c c with
      | error e => rfl
      | ok sb => rfl

theorem hexPairs_dropLast_odd : ∀ hex : List Nat, hex.length % 2 = 1 →
    hexPairs hex = hexPairs hex.dropLast
  | [], h => by simp at h
  | [c], _ => rfl
  | c1 :: c2 :: rest, h => by
    have hr : rest.length % 2 = 1 := by
      simp only [List.length_cons] at h
      omega
    have hd : (c1 :: c2 :: rest).dropLast = c1 :: c2 :: rest.dropLast := by
      cases rest with
      | nil => simp at hr
      | cons r rs => rfl
    rw [hd]
    simp only [hexPairs]
    rw [hexPairs_dropLast_odd rest hr]

/-- C7 counterexample: on `exDoc7`, whose only dictionary carries the
odd-length hex payload `ABC`, the byte-buffer construction does NOT
fail: ToIndex (ES2017+) truncates `new Uint8Array(1.5)` to one byte
and the final out-of-bounds write is silently ignored, so the
signature is not dropped — `extractSignatures` pushes one record, with
the truncated payload `[0xAB]` and index 0 consumed. -/
theorem claim_C7_counterexample :
    (extractSignatures exDoc7).map (fun s => s.contents) = [[171]] ∧
    (extractSignatures exDoc7).map ExtractedSignature.index = [0] := by
  exact ⟨by decide, by decide⟩

/-- C7 (amended): the locator is total by construction; an odd-length
hex `/Contents` payload raises nothing — the typed-array length is
truncated, so `hexToBytes` merely ignores the trailing lone digit and
the record is still pushed; the exception that can arise while
processing a single marker is the URIError of the text-field decoding,
which drops that signature (after its index was consumed) with only a
log diagnostic, and the scan loop continues after any marker whose
processing produced no record. -/
theorem claim_C7 :
    (∀ hex : List Nat, hex.length % 2 = 1 →
       hexToBytes hex = hexToBytes hex.dropLast) ∧
    (∀ ctx idx br hex, findFirstMap matchBRAt ctx = some br →
       findFirstMap matchContentsAt ctx = some hex →
       decodeOpt (findFirstMap (matchTextAt (strBytes ("/Reason"))) ctx) = none →
       processContext ctx idx = (none, idx + 1)) ∧
    (∀ doc fuel pos idx p e idx2,
       findMarker doc pos = some (p, e) →
       processContext (windowCtx doc p) idx = (none, idx2) →
       scanLoop doc (fuel + 1) pos idx = scanLoop doc fuel e idx2) := by
  refine ⟨?_, ?_, ?_⟩
  · intro hex h
    unfold hexToBytes
    rw [hexPairs_dropLast_odd hex h]
  · intro ctx idx br hex hbr hc hdec
    simp only [processContext, hbr, hc, hdec]
  · intro doc fuel pos idx p e idx2 hfind hproc
    show scanStep doc (scanLoop doc fuel) pos idx = _
    rw [scanStep, hfind]
    dsimp only
    rw [hproc]

/-- C7 witness: the odd-length payload `ABC` loses only its lone
trailing digit, and the document `exDocC7c`, whose `/Reason` text is
not valid UTF-8, has its only signature dropped (index consumed) while
the scan continues after the marker. -/
theorem claim_C7_witness :
    hexToBytes (strBytes ("ABC")) = hexToBytes ((strBytes ("ABC")).dropLast) ∧
    processContext (windowCtx exDocC7c 0) 0 = (none, 0 + 1) ∧
    scanLoop exDocC7c (exDocC7c.length + 1) 0 0 = scanLoop exDocC7c exDocC7c.length 10 1 :=
  ⟨claim_C7.1 (strBytes ("ABC")) (by decide),
   claim_C7.2.1 (windowCtx exDocC7c 0) 0 [0, 1, 2, 3] (strBytes ("AB"))
     (by decide) (by decide) (by decide),
   claim_C7.2.2 exDocC7c exDocC7c.length 0 0 0 10 1 (by decide) (by decide)⟩

theorem processContext_snd (ctx : List Nat) (i : Nat) :
    (processContext ctx i).2 = i ∨ (processContext ctx i).2 = i + 1 := by
  unfold processContext
  cases h1 : findFirstMap matchBRAt ctx
  · simp
  · dsimp only
    cases h2 : findFirstMap matchContentsAt ctx
    · simp
    · dsimp only
      cases h4 : decodeOpt (findFirstMap (matchTextAt (strBytes ("/Reason"))) ctx)
      · simp
      · dsimp only
        cases h5 : decodeOpt (findFirstMap (matchTextAt (strBytes ("/Location"))) ctx)
        · simp
        · dsimp only
          cases h6 : decodeOpt (findFirstMap (matchTextAt (strBytes ("/ContactInfo"))) ctx)
          · simp
          · dsimp only
            cases h7 : decodeOpt (findFirstMap (matchTextAt (strBytes ("/Name"))) ctx)
            · simp
            · simp

theorem processContext_fst_some (ctx : List Nat) (i : Nat) (sig : ExtractedSignature)
    (j : Nat) (h : processContext ctx i = (some sig, j)) :
    sig.index = i ∧ j = i + 1 := by
  unfold processContext at h
  cases h1 : findFirstMap matchBRAt ctx <;> rw [h1] at h
  · simp at h
  · dsimp only at h
    cases h2 : findFirstMap matchContentsAt ctx <;> rw [h2] at h
    · simp at h
    · dsimp only at h
      cases h4 : decodeOpt (findFirstMap (matchTextAt (strBytes ("/Reason"))) ctx) <;>
        rw [h4] at h
      · simp at h
      · dsimp only at h
        cases h5 : decodeOpt (findFirstMap (matchTextAt (strBytes ("/Location"))) ctx) <;>
          rw [h5] at h
        · simp at h
        · dsimp only at h
          cases h6 : decodeOpt (findFirstMap (matchTextAt (strBytes ("/ContactInfo"))) ctx) <;>
            rw [h6] at h
          · simp at h
          · dsimp only at h
            cases h7 : decodeOpt (findFirstMap (matchTextAt (strBytes ("/Name"))) ctx) <;>
              rw [h7] at h
            · simp at h
            · dsimp only at h
              simp only [Prod.mk.injEq] at h
              obtain ⟨hs, hj⟩ := h
              have hs2 := Option.some.inj hs
              exact ⟨by rw [← hs2], hj.symm⟩

theorem scanLoop_pairwise (doc : List Nat) :
    ∀ fuel pos idx,
      List.Pairwise (fun a b => a < b)
        ((scanLoop doc fuel pos idx).map ExtractedSignature.index) ∧
      (∀ x ∈ (scanLoop doc fuel pos idx).map ExtractedSignature.index, idx ≤ x) := by
  intro fuel
  induction fuel with
  | zero => intro pos idx; simp [scanLoop]
  | succ n ih =>
    intro pos idx
    rw [show scanLoop doc (n + 1) = scanStep doc (scanLoop doc n) from rfl]
    unfold scanStep
    cases hf : findMarker doc pos
    · simp
    · rename_i pe
      obtain ⟨p, e⟩ := pe
      dsimp only
      rcases hp : processContext (windowCtx doc p) idx with ⟨_ | sig, idx2⟩
      · dsimp only
        have hsnd := processContext_snd (windowCtx doc p) idx
        rw [hp] at hsnd
        simp only at hsnd
        have hle : idx ≤ idx2 := by rcases hsnd with h | h <;> omega
        obtain ⟨ih1, ih2⟩ := ih e idx2
        exact ⟨ih1, fun x hx => le_trans hle (ih2 x hx)⟩
      · dsimp only
        obtain ⟨hidx, hj⟩ := processContext_fst_some (windowCtx doc p) idx sig idx2 hp
        obtain ⟨ih1, ih2⟩ := ih e idx2
        simp only [List.map_cons, List.pairwise_cons]
        refine ⟨⟨?_, ih1⟩, ?_⟩
        · intro b hb
          have hb2 := ih2 b hb
          omega
        · intro x hx
          rcases List.mem_cons.mp hx with hx | hx
          · omega
          · have := ih2 x hx
            omega

/-- C6 counterexample: in `exDocC6` the first signature dictionary is
malformed (its region up to the second marker contains no `/ByteRange`)
and the second is well formed, yet `extractSignatures` returns TWO
records (indices 0 and 1), not one: the first marker's ±5000/+10000
search window reaches the second dictionary and borrows its fields. -/
theorem claim_C6_counterexample :
    findFirstMap matchBRAt exDocC6FirstDict = none ∧
    (extractSignatures exDocC6).map ExtractedSignature.index = [0, 1] := by
  exact ⟨by decide, by decide⟩

/-- C6 amended: the records carry strictly increasing `index` values in
discovery order (a dictionary skipped before the record is built
consumes no index, one dropped after `sigIndex++` leaves a gap); and
because field search uses a window around each marker rather than the
dictionary's own bounds, a malformed first dictionary followed by a
nearby well-formed one yields two records, not one. -/
theorem claim_C6_amended :
    (∀ doc : List Nat, List.Pairwise (fun a b => a < b)
        ((extractSignatures doc).map ExtractedSignature.index)) ∧
    (extractSignatures exDocC6).length = 2 := by
  constructor
  · intro doc
    exact (scanLoop_pairwise doc (doc.length + 1) 0 0).1
  · decide

theorem validateSignature_signatureIndex (p7parse : List Nat → Except JsErr P7)
    (isIssuerF : Certificate → Certificate → Except JsErr Bool)
    (now : Int) (parseDate : List Nat → Int)
    (sig : ExtractedSignature) (pdf : List Nat) (trusted : Option Certificate) :
    (validateSignature p7parse isIssuerF now parseDate sig pdf trusted).signatureIndex
      = sig.index := by
  unfold validateSignature
  cases hE : p7parse sig.contents with
  | error e => rfl
  | ok p7 =>
    obtain ⟨certs, attrs⟩ := p7
    cases certs with
    | nil => rfl
    | cons c cs =>
      dsimp only
      cases hI : isIssuerF c c with
      | error e => rfl
      | ok sb => rfl

/-- C3: the batch validator returns exactly one result per extracted
signature in discovery order with matching indices, `countSignatures`
is the length of the extracted sequence, and a document containing no
signature-dictionary marker yields an empty sequence and count 0. -/
theorem claim_C3 (p7parse : List Nat → Except JsErr P7)
    (isIssuerF : Certificate → Certificate → Except JsErr Bool)
    (now : Int) (parseDate : List Nat → Int)
    (pdf : List Nat) (trusted : Option Certificate) :
    (validatePdfSignatures p7parse isIssuerF now parseDate pdf trusted).map
        SignatureValidationResult.signatureIndex =
      (extractSignatures pdf).map ExtractedSignature.index ∧
    (validatePdfSignatures p7parse isIssuerF now parseDate pdf trusted).length =
      (extractSignatures pdf).length ∧
    countSignatures pdf = (extractSignatures pdf).length ∧
    (findMarker pdf 0 = none →
      extractSignatures pdf = [] ∧ countSignatures pdf = 0) := by
  refine ⟨?_, ?_, ?_, ?_⟩
  · unfold validatePdfSignatures
    induction extractSignatures pdf with
    | nil => rfl
    | cons s t ih =>
      simp only [List.map_cons, validateSignature_signatureIndex]
      rw [ih]
  · simp [validatePdfSignatures]
  · rfl
  · intro h
    have hext : extractSignatures pdf = [] := by
      show scanStep pdf (scanLoop pdf pdf.length) 0 0 = []
      rw [scanStep, h]
    exact ⟨hext, by simp [countSignatures, hext]⟩

/-- C3 witness: the empty document. -/
theorem claim_C3_witness :
    extractSignatures ([] : List Nat) = [] ∧ countSignatures ([] : List Nat) = 0 :=
  (claim_C3 p7parseEx isIssuerEx 0 parseDateEx [] none).2.2.2 rfl

theorem validateSignature_err (p7parse : List Nat → Except JsErr P7)
    (isIssuerF : Certificate → Certificate → Except JsErr Bool)
    (now : Int) (parseDate : List Nat → Int)
    (sig : ExtractedSignature) (pdf : List Nat) (trusted : Option Certificate)
    (e : JsErr) (hparse : p7parse sig.contents = Except.error e) :
    validateSignature p7parse isIssuerF now parseDate sig pdf trusted =
      { initResult sig with errorMessage := some (errMsgOf e) } := by
  unfold validateSignature
  rw [hparse]

theorem validateSignature_nocert (p7parse : List Nat → Except JsErr P7)
    (isIssuerF : Certificate → Certificate → Except JsErr Bool)
    (now : Int) (parseDate : List Nat → Int)
    (sig : ExtractedSignature) (pdf : List Nat) (trusted : Option Certificate)
    (p7 : P7) (hparse : p7parse sig.contents = Except.ok p7)
    (hcerts : p7.certificates = []) :
    validateSignature p7parse isIssuerF now parseDate sig pdf trusted =
      { initResult sig with errorMessage := some ("No certificates found in signature") } := by
  unfold validateSignature
  rw [hparse]
  dsimp only
  rw [hcerts]

theorem validateSignature_selferr (p7parse : List Nat → Except JsErr P7)
    (isIssuerF : Certificate → Certificate → Except JsErr Bool)
    (now : Int) (parseDate : List Nat → Int)
    (sig : ExtractedSignature) (pdf : List Nat) (trusted : Option Certificate)
    (p7 : P7) (c : Certificate) (cs : List Certificate) (e : JsErr)
    (hparse : p7parse sig.contents = Except.ok p7)
    (hcerts : p7.certificates = c :: cs)
    (hself : isIssuerF c c = Except.error e) :
    validateSignature p7parse isIssuerF now parseDate sig pdf trusted =
      { extractSignerFields c now (initResult sig) with errorMessage := some (errMsgOf e) } := by
  unfold validateSignature
  rw [hparse]
  dsimp only
  rw [hcerts]
  dsimp only
  rw [hself]

theorem validateSignature_ok (p7parse : List Nat → Except JsErr P7)
    (isIssuerF : Certificate → Certificate → Except JsErr Bool)
    (now : Int) (parseDate : List Nat → Int)
    (sig : ExtractedSignature) (pdf : List Nat) (trusted : Option Certificate)
    (p7 : P7) (c : Certificate) (cs : List Certificate) (sb : Bool)
    (hparse : p7parse sig.contents = Except.ok p7)
    (hcerts : p7.certificates = c :: cs)
    (hself : isIssuerF c c = Except.ok sb) :
    validateSignature p7parse isIssuerF now parseDate sig pdf trusted =
      { applyCoverage sig pdf
          (applySignatureDate parseDate sig p7
            (applyAlgorithms c
              (applyTrust isIssuerF trusted (c :: cs) c
                { extractSignerFields c now (initResult sig) with isSelfSigned := sb }))) with
        isValid := true } := by
  unfold validateSignature
  rw [hparse]
  dsimp only
  rw [hcerts]
  dsimp only
  rw [hself]

/-- C1: for a signature that reaches the coverage step (its payload
decodes, it embeds a certificate and the self-signed check returns)
with a 4-element byte range `[n1, n2, s2, l2]`, the result's
`coverageStatus` is `full` iff `s2 + l2` equals the document length,
`part` (the source's `'partial'`) iff it is strictly smaller, and
`unknown` iff it is strictly larger. -/
theorem claim_C1 (p7parse : List Nat → Except JsErr P7)
    (isIssuerF : Certificate → Certificate → Except JsErr Bool)
    (now : Int) (parseDate : List Nat → Int)
    (sig : ExtractedSignature) (pdf : List Nat) (trusted : Option Certificate)
    (p7 : P7) (c : Certificate) (cs : List Certificate) (sb : Bool)
    (n1 n2 s2 l2 : Nat)
    (hparse : p7parse sig.contents = Except.ok p7)
    (hcerts : p7.certificates = c :: cs)
    (hself : isIssuerF c c = Except.ok sb)
    (hbr : sig.byteRange = [n1, n2, s2, l2]) :
    ((validateSignature p7parse isIssuerF now parseDate sig pdf trusted).coverageStatus
        = CoverageStatus.full ↔ s2 + l2 = pdf.length) ∧
    ((validateSignature p7parse isIssuerF now parseDate sig pdf trusted).coverageStatus
        = CoverageStatus.part ↔ s2 + l2 < pdf.length) ∧
    ((validateSignature p7parse isIssuerF now parseDate sig pdf trusted).coverageStatus
        = CoverageStatus.unknown ↔ pdf.length < s2 + l2) := by
  rw [validateSignature_ok p7parse isIssuerF now parseDate sig pdf trusted p7 c cs sb
      hparse hcerts hself]
  have hcov : ({ applyCoverage sig pdf
      (applySignatureDate parseDate sig p7
        (applyAlgorithms c
          (applyTrust isIssuerF trusted (c :: cs) c
            { extractSignerFields c now (initResult sig) with isSelfSigned := sb }))) with
      isValid := true } : SignatureValidationResult).coverageStatus
      = computeCoverage sig pdf.length CoverageStatus.unknown := by
    simp [applyCoverage, applySignatureDate, applyAlgorithms, applyTrust,
      extractSignerFields, initResult]
  rw [hcov]
  unfold computeCoverage
  rw [hbr]
  have e2 : ([n1, n2, s2, l2] : List Nat).getD 2 0 = s2 := rfl
  have e3 : ([n1, n2, s2, l2] : List Nat).getD 3 0 = l2 := rfl
  have hlen : ([n1, n2, s2, l2] : List Nat).length = 4 := by simp
  rw [if_pos hlen]
  dsimp only
  rw [e2, e3]
  rcases Nat.lt_trichotomy (s2 + l2) pdf.length with hlt | heq | hgt
  · rw [if_neg (by omega), if_pos hlt]
    refine ⟨⟨fun h => absurd h (by decide), fun h => absurd h (by omega)⟩,
            ⟨fun _ => hlt, fun _ => rfl⟩,
            ⟨fun h => absurd h (by decide), fun h => absurd h (by omega)⟩⟩
  · rw [if_pos heq]
    refine ⟨⟨fun _ => heq, fun _ => rfl⟩,
            ⟨fun h => absurd h (by decide), fun h => absurd h (by omega)⟩,
            ⟨fun h => absurd h (by decide), fun h => absurd h (by omega)⟩⟩
  · rw [if_neg (by omega), if_neg (by omega)]
    refine ⟨⟨fun h => absurd h (by decide), fun h => absurd h (by omega)⟩,
            ⟨fun h => absurd h (by decide), fun h => absurd h (by omega)⟩,
            ⟨fun _ => hgt, fun _ => rfl⟩⟩

/-- C1 witness: the spec's scenario, byte range `[0, 100, 200, 50]` on
a 250-byte document. -/
theorem claim_C1_witness :
    (validateSignature p7parseEx isIssuerEx 0 parseDateEx sigEx
        (List.replicate 250 0) none).coverageStatus = CoverageStatus.full :=
  (claim_C1 p7parseEx isIssuerEx 0 parseDateEx sigEx (List.replicate 250 0) none
    p7Ex certEx [] false 0 100 200 50 rfl rfl rfl rfl).1.mpr (by simp)

/-- C5: for a signature whose payload decodes with at least one
certificate, the result's validity window is copied from the signer
certificate and `isExpired` is true exactly when the evaluation time is
strictly before `validFrom` or strictly after `validTo`, false on the
whole closed interval. -/
theorem claim_C5 (p7parse : List Nat → Except JsErr P7)
    (isIssuerF : Certificate → Certificate → Except JsErr Bool)
    (now : Int) (parseDate : List Nat → Int)
    (sig : ExtractedSignature) (pdf : List Nat) (trusted : Option Certificate)
    (p7 : P7) (c : Certificate) (cs : List Certificate)
    (hparse : p7parse sig.contents = Except.ok p7)
    (hcerts : p7.certificates = c :: cs) :
    (validateSignature p7parse isIssuerF now parseDate sig pdf trusted).validFrom
        = c.notBefore ∧
    (validateSignature p7parse isIssuerF now parseDate sig pdf trusted).validTo
        = c.notAfter ∧
    ((validateSignature p7parse isIssuerF now parseDate sig pdf trusted).isExpired = true ↔
      (now < c.notBefore ∨ c.notAfter < now)) ∧
    (c.notBefore ≤ now → now ≤ c.notAfter →
      (validateSignature p7parse isIssuerF now parseDate sig pdf trusted).isExpired = false) := by
  have hfields : (validateSignature p7parse isIssuerF now parseDate sig pdf trusted).validFrom
        = c.notBefore ∧
      (validateSignature p7parse isIssuerF now parseDate sig pdf trusted).validTo
        = c.notAfter ∧
      (validateSignature p7parse isIssuerF now parseDate sig pdf trusted).isExpired
        = (decide (c.notAfter < now) || decide (now < c.notBefore)) := by
    cases hI : isIssuerF c c with
    | error e =>
      rw [validateSignature_selferr p7parse isIssuerF now parseDate sig pdf trusted
          p7 c cs e hparse hcerts hI]
      simp [extractSignerFields, initResult]
    | ok sb =>
      rw [validateSignature_ok p7parse isIssuerF now parseDate sig pdf trusted
          p7 c cs sb hparse hcerts hI]
      simp [applyCoverage, applySignatureDate, applyAlgorithms, applyTrust,
        extractSignerFields, initResult]
  obtain ⟨h1, h2, h3⟩ := hfields
  refine ⟨h1, h2, ?_, ?_⟩
  · rw [h3]
    simp only [Bool.or_eq_true, decide_eq_true_eq]
    constructor
    · intro h
      rcases h with h | h
      · exact Or.inr h
      · exact Or.inl h
    · intro h
      rcases h with h | h
      · exact Or.inr h
      · exact Or.inl h
  · intro hl hr
    rw [h3]
    simp only [Bool.or_eq_false_iff, decide_eq_false_iff_not]
    omega

/-- C5 witness: evaluation time 15 inside the window `[10, 20]` of the
witness certificate is not expired. -/
theorem claim_C5_witness :
    (validateSignature p7parseEx isIssuerEx 15 parseDateEx sigEx [] none).isExpired = false :=
  (claim_C5 p7parseEx isIssuerEx 15 parseDateEx sigEx [] none p7Ex certEx []
    rfl rfl).2.2.2 (by decide) (by decide)

/-- C2: a payload whose DER decoding throws yields `isValid = false`,
signer name `'Unknown'`, both validity dates at the zero default and a
non-empty `errorMessage` (provided the thrown `Error`, if any, carries
a non-empty message, as node-forge's do); and on every path of
`validateSignature` — assuming the oracles never throw empty-message
errors — `isValid = false` implies a non-empty `errorMessage`. -/
theorem claim_C2 (p7parse : List Nat → Except JsErr P7)
    (isIssuerF : Certificate → Certificate → Except JsErr Bool)
    (now : Int) (parseDate : List Nat → Int)
    (sig : ExtractedSignature) (pdf : List Nat) (trusted : Option Certificate) :
    (∀ e, p7parse sig.contents = Except.error e → ¬ e = some ("") →
      (validateSignature p7parse isIssuerF now parseDate sig pdf trusted).isValid = false ∧
      (validateSignature p7parse isIssuerF now parseDate sig pdf trusted).signerName
        = "Unknown" ∧
      (validateSignature p7parse isIssuerF now parseDate sig pdf trusted).validFrom = 0 ∧
      (validateSignature p7parse isIssuerF now parseDate sig pdf trusted).validTo = 0 ∧
      ¬ ((validateSignature p7parse isIssuerF now parseDate sig pdf
          trusted).errorMessage.getD ("") = "")) ∧
    ((∀ bs m, p7parse bs = Except.error (some m) → ¬ m = "") →
      (∀ a b m, isIssuerF a b = Except.error (some m) → ¬ m = "") →
      (validateSignature p7parse isIssuerF now parseDate sig pdf trusted).isValid = false →
      ¬ ((validateSignature p7parse isIssuerF now parseDate sig pdf
          trusted).errorMessage.getD ("") = "")) := by
  constructor
  · intro e hparse hne
    rw [validateSignature_err p7parse isIssuerF now parseDate sig pdf trusted e hparse]
    refine ⟨rfl, rfl, rfl, rfl, ?_⟩
    cases e with
    | none => exact (by decide : ¬ ("Failed to parse signature" : String) = "")
    | some m =>
      simp only [errMsgOf, Option.getD_some]
      intro hm
      exact hne (by rw [hm])
  · intro hp hi hvalid
    cases hE : p7parse sig.contents with
    | error e =>
      rw [validateSignature_err p7parse isIssuerF now parseDate sig pdf trusted e hE]
      cases e with
      | none => exact (by decide : ¬ ("Failed to parse signature" : String) = "")
      | some m =>
        simp only [errMsgOf, Option.getD_some]
        exact hp sig.contents m hE
    | ok p7 =>
      cases hcs : p7.certificates with
      | nil =>
        rw [validateSignature_nocert p7parse isIssuerF now parseDate sig pdf trusted
            p7 hE hcs]
        exact (by decide : ¬ ("No certificates found in signature" : String) = "")
      | cons c cs =>
        cases hI : isIssuerF c c with
        | error e =>
          rw [validateSignature_selferr p7parse isIssuerF now parseDate sig pdf trusted
              p7 c cs e hE hcs hI]
          cases e with
          | none => exact (by decide : ¬ ("Failed to parse signature" : String) = "")
          | some m =>
            simp only [errMsgOf, Option.getD_some]
            exact hi c c m hI
        | ok sb =>
          rw [validateSignature_ok p7parse isIssuerF now parseDate sig pdf trusted
              p7 c cs sb hE hcs hI] at hvalid
          simp at hvalid

/-- C2 witness: a parser oracle that always throws `Error('bad DER')`. -/
theorem claim_C2_witness :
    (validateSignature p7parseFailEx isIssuerEx 0 parseDateEx sigEx [] none).isValid = false ∧
    (validateSignature p7parseFailEx isIssuerEx 0 parseDateEx sigEx [] none).signerName
      = "Unknown" ∧
    (validateSignature p7parseFailEx isIssuerEx 0 parseDateEx sigEx [] none).validFrom = 0 ∧
    (validateSignature p7parseFailEx isIssuerEx 0 parseDateEx sigEx [] none).validTo = 0 ∧
    ¬ ((validateSignature p7parseFailEx isIssuerEx 0 parseDateEx sigEx []
        none).errorMessage.getD ("") = "") :=
  (claim_C2 p7parseFailEx isIssuerEx 0 parseDateEx sigEx [] none).1
    (some ("bad DER")) rfl (by decide)

theorem chainTrustLoop_char (isIssuerF : Certificate → Certificate → Except JsErr Bool)
    (tc : Certificate) :
    ∀ l : List Certificate, (∀ c ∈ l, ∃ bb, isIssuerF tc c = Except.ok bb) →
      ∃ b, chainTrustLoop isIssuerF tc l = Except.ok b ∧
        (b = true ↔ ∃ c ∈ l, isIssuerF tc c = Except.ok true ∨
          c.serialNumber = tc.serialNumber) := by
  intro l
  induction l with
  | nil => intro _; exact ⟨false, rfl, by simp⟩
  | cons c cs ih =>
    intro hall
    obtain ⟨bb, hbb⟩ := hall c (List.mem_cons_self c cs)
    obtain ⟨b2, hb2, hiff2⟩ := ih (fun d hd => hall d (List.mem_cons_of_mem c hd))
    by_cases hcond : bb = true ∨ c.serialNumber = tc.serialNumber
    · refine ⟨true, ?_, ?_⟩
      · unfold chainTrustLoop
        rw [hbb]
        dsimp only
        rw [if_pos hcond]
      · constructor
        · intro _
          refine ⟨c, List.mem_cons_self c cs, ?_⟩
          rcases hcond with h | h
          · exact Or.inl (by rw [hbb, h])
          · exact Or.inr h
        · intro _; rfl
    · refine ⟨b2, ?_, ?_⟩
      · unfold chainTrustLoop
        rw [hbb]
        dsimp only
        rw [if_neg hcond]
        exact hb2
      · rw [hiff2]
        constructor
        · rintro ⟨d, hd, hdisj⟩
          exact ⟨d, List.mem_cons_of_mem c hd, hdisj⟩
        · rintro ⟨d, hd, hdisj⟩
          rcases List.mem_cons.mp hd with rfl | hd2
          · rcases hdisj with h | h
            · rw [hbb] at h
              exact absurd (Or.inl (Except.ok.inj h)) hcond
            · exact absurd (Or.inr h) hcond
          · exact ⟨d, hd2, hdisj⟩

theorem trustEval_char (isIssuerF : Certificate → Certificate → Except JsErr Bool)
    (tc signer : Certificate) (certs : List Certificate)
    (ib : Bool) (hib : isIssuerF tc signer = Except.ok ib)
    (hall : ∀ c ∈ certs, ∃ bb, isIssuerF tc c = Except.ok bb) :
    ∃ b, trustEval isIssuerF tc signer certs = Except.ok b ∧
      (b = true ↔ (ib = true ∨ signer.serialNumber = tc.serialNumber ∨
        ∃ c ∈ certs, isIssuerF tc c = Except.ok true ∨
          c.serialNumber = tc.serialNumber)) := by
  obtain ⟨cb, hcb, hciff⟩ := chainTrustLoop_char isIssuerF tc certs hall
  refine ⟨ib || decide (signer.serialNumber = tc.serialNumber) || cb, ?_, ?_⟩
  · unfold trustEval
    rw [hib]
    dsimp only
    rw [hcb]
  · constructor
    · intro h
      simp only [Bool.or_eq_true, decide_eq_true_eq] at h
      rcases h with (h | h) | h
      · exact Or.inl h
      · exact Or.inr (Or.inl h)
      · exact Or.inr (Or.inr (hciff.mp h))
    · intro h
      simp only [Bool.or_eq_true, decide_eq_true_eq]
      rcases h with h | h | h
      · exact Or.inl (Or.inl h)
      · exact Or.inl (Or.inr h)
      · exact Or.inr (hciff.mpr h)

/-- C4: with a trusted certificate supplied and the payload decoded
(the self-signed check returning), `isTrusted` is `false` whenever the
trust evaluation throws; when the issuer oracle returns on the trusted
certificate against the signer and every chain member, `isTrusted` is
true exactly when the trusted certificate's `isIssuer` test on the
signer succeeds, the serial numbers coincide, or some chain member
passes the `isIssuer` test or shares the trusted serial; in particular
a shared serial number forces `isTrusted = true`. -/
theorem claim_C4 (p7parse : List Nat → Except JsErr P7)
    (isIssuerF : Certificate → Certificate → Except JsErr Bool)
    (now : Int) (parseDate : List Nat → Int)
    (sig : ExtractedSignature) (pdf : List Nat)
    (p7 : P7) (c : Certificate) (cs : List Certificate) (sb : Bool) (tc : Certificate)
    (hparse : p7parse sig.contents = Except.ok p7)
    (hcerts : p7.certificates = c :: cs)
    (hself : isIssuerF c c = Except.ok sb) :
    (∀ e, trustEval isIssuerF tc c (c :: cs) = Except.error e →
      (validateSignature p7parse isIssuerF now parseDate sig pdf (some tc)).isTrusted
        = false) ∧
    (∀ ib, isIssuerF tc c = Except.ok ib →
      (∀ d ∈ c :: cs, ∃ bb, isIssuerF tc d = Except.ok bb) →
      ((validateSignature p7parse isIssuerF now parseDate sig pdf (some tc)).isTrusted
          = true ↔
        (ib = true ∨ c.serialNumber = tc.serialNumber ∨
          ∃ d ∈ c :: cs, isIssuerF tc d = Except.ok true ∨
            d.serialNumber = tc.serialNumber))) ∧
    (c.serialNumber = tc.serialNumber →
      (∀ d ∈ c :: cs, ∃ bb, isIssuerF tc d = Except.ok bb) →
      (validateSignature p7parse isIssuerF now parseDate sig pdf (some tc)).isTrusted
        = true) := by
  have hproj : (validateSignature p7parse isIssuerF now parseDate sig pdf
      (some tc)).isTrusted = computeTrust isIssuerF (some tc) (c :: cs) c false := by
    rw [validateSignature_ok p7parse isIssuerF now parseDate sig pdf (some tc)
        p7 c cs sb hparse hcerts hself]
    simp [applyCoverage, applySignatureDate, applyAlgorithms, applyTrust,
      extractSignerFields, initResult]
  refine ⟨?_, ?_, ?_⟩
  · intro e he
    rw [hproj]
    simp [computeTrust, he]
  · intro ib hib hall
    obtain ⟨b, hb, hiff⟩ := trustEval_char isIssuerF tc c (c :: cs) ib hib hall
    rw [hproj]
    unfold computeTrust
    dsimp only
    rw [hb]
    exact hiff
  · intro hsame hall
    obtain ⟨ib, hib⟩ := hall c (List.mem_cons_self c cs)
    obtain ⟨b, hb, hiff⟩ := trustEval_char isIssuerF tc c (c :: cs) ib hib hall
    rw [hproj]
    unfold computeTrust
    dsimp only
    rw [hb]
    exact hiff.mpr (Or.inr (Or.inl hsame))

/-- C4 witness: a trusted certificate with the same serial number as
the signer certificate is trusted. -/
theorem claim_C4_witness :
    (validateSignature p7parseEx isIssuerEx 0 parseDateEx sigEx []
        (some certEx)).isTrusted = true :=
  (claim_C4 p7parseEx isIssuerEx 0 parseDateEx sigEx [] p7Ex certEx [] false certEx
    rfl rfl rfl).2.2 rfl (fun _ _ => ⟨false, rfl⟩)
